import Mathlib

/-!
# Verification of the heartbeat ingestion and accumulation protocol

A shallow embedding of the agent-facing API handlers of the device-fleet
monitoring service (`src/api/install.ts` and `src/api/upload.ts`).

JavaScript numbers appearing in payloads are modelled as `Option ℚ`:
`none` stands for an absent field or a value whose `Number(...)` coercion
is `NaN`, `some q` for a finite numeric value.  The JavaScript `||`
operator on such a value falls through exactly when the value is absent,
`NaN`, or `0`; on strings it falls through when the string is absent or
empty.  JavaScript object spread (`{...a, ...b}`) is keyed on *presence*,
not truthiness: a key present in `b` always overrides `a`.

`Map` objects keyed by strings are modelled as association lists that
preserve insertion order, with `Map.set` replacing the value in place
when the key is already present and appending otherwise, exactly as the
handlers build them from the stored arrays.
-/

/-- JS `Number(x) || b` for an optional numeric `x`: falls through to `b`
when `x` is absent (or `NaN`) or equal to `0`. -/
def jsOr (a : Option ℚ) (b : ℚ) : ℚ :=
  match a with
  | some v => if v = 0 then b else v
  | none => b

/-- JS `s || b` for an optional string `s` with a plain-string fallback:
falls through when `s` is absent or empty. -/
def jsOrStr (a : Option String) (b : String) : String :=
  match a with
  | some s => if s = "" then b else s
  | none => b

/-- JS `s || t` where both operands are possibly-absent strings. -/
def jsOrStrOpt (a b : Option String) : Option String :=
  match a with
  | some s => if s = "" then b else some s
  | none => b

/-- JS `a || b` for possibly-absent arrays or objects: any present array
(or object) is truthy, including the empty array. -/
def jsOrOpt {α : Type} (a b : Option α) : Option α :=
  match a with
  | some x => some x
  | none => b

/-- JS `xs || []` for a possibly-absent array. -/
def jsArr {α : Type} (o : Option (List α)) : List α := o.getD []

/-- JS truthiness of a possibly-absent string. -/
def strTruthy (a : Option String) : Bool :=
  match a with
  | some s => s ≠ ""
  | none => false

section KeyedMap

variable {α : Type} (key : α → String)

/-- `Map.set` on an insertion-ordered association list: replace in place
if an entry with the same key exists, else append. -/
def mapSet (m : List α) (v : α) : List α :=
  if m.any (fun e => key e = key v) then
    m.map (fun e => if key e = key v then v else e)
  else m ++ [v]

/-- `Map.get`: the first entry with the given key. -/
def findKey (m : List α) (k : String) : Option α :=
  m.find? (fun e => key e = k)

/-- Loading a stored array into a fresh `Map` (the handlers' per-entry
`map.set(entry.key, {...entry})` loop). -/
def loadMap (m : List α) : List α :=
  m.foldl (fun acc a => mapSet key acc a) []

/-- The keys of an association list, in order. -/
def keysOf (m : List α) : List String := m.map key

/-- The list represents a `Map`: its keys are pairwise distinct. -/
def NodupKey (m : List α) : Prop := (keysOf key m).Nodup

theorem findKey_mapSet_self (m : List α) (v : α) :
    findKey key (mapSet key m v) (key v) = some v := by
  unfold mapSet findKey
  by_cases hm : m.any (fun e => key e = key v) = true
  · rw [if_pos hm]
    induction m with
    | nil => simp at hm
    | cons a t ih =>
      rw [List.map_cons]
      by_cases h : key a = key v
      · rw [if_pos h, List.find?_cons_of_pos _ (by simp)]
      · rw [if_neg h, List.find?_cons_of_neg _ (by simpa using h)]
        exact ih (by simpa [h] using hm)
  · rw [if_neg hm]
    have hall : ∀ x ∈ m, ¬ (key x = key v) := by simpa using hm
    have hnone : List.find? (fun e => key e = key v) m = none := by
      rw [List.find?_eq_none]
      intro x hx
      simpa using hall x hx
    rw [List.find?_append, hnone, List.find?_cons_of_pos _ (by simp)]
    rfl

theorem findKey_mapSet_ne (m : List α) (v : α) (k : String) (hk : k ≠ key v) :
    findKey key (mapSet key m v) k = findKey key m k := by
  unfold mapSet findKey
  have hvk : ¬ (key v = k) := fun hh => hk hh.symm
  by_cases hm : m.any (fun e => key e = key v) = true
  · rw [if_pos hm]
    clear hm
    induction m with
    | nil => rfl
    | cons a t ih =>
      rw [List.map_cons]
      by_cases h : key a = key v
      · have h2 : ¬ (key a = k) := by rw [h]; exact hvk
        rw [if_pos h, List.find?_cons_of_neg _ (by simpa using hvk),
          List.find?_cons_of_neg _ (by simpa using h2)]
        exact ih
      · rw [if_neg h]
        by_cases hak : key a = k
        · rw [List.find?_cons_of_pos _ (by simpa using hak),
            List.find?_cons_of_pos _ (by simpa using hak)]
        · rw [List.find?_cons_of_neg _ (by simpa using hak),
            List.find?_cons_of_neg _ (by simpa using hak)]
          exact ih
  · rw [if_neg hm, List.find?_append]
    have hsing : List.find? (fun e => key e = k) [v] = none := by
      rw [List.find?_cons_of_neg _ (by simpa using hvk)]
      rfl
    rw [hsing]
    cases List.find? (fun e => key e = k) m <;> rfl

theorem keysOf_mapSet (m : List α) (v : α) :
    keysOf key (mapSet key m v) =
      if m.any (fun e => key e = key v) then keysOf key m
      else keysOf key m ++ [key v] := by
  by_cases hm : m.any (fun e => key e = key v) = true
  · rw [if_pos hm]
    unfold mapSet keysOf
    rw [if_pos hm, List.map_map]
    refine List.map_congr_left ?_
    intro a _
    by_cases h : key a = key v
    · simp [h]
    · simp [h]
  · rw [if_neg hm]
    unfold mapSet keysOf
    rw [if_neg hm, List.map_append]
    rfl

theorem nodupKey_mapSet (m : List α) (v : α) (h : NodupKey key m) :
    NodupKey key (mapSet key m v) := by
  unfold NodupKey
  rw [keysOf_mapSet]
  by_cases hm : m.any (fun e => key e = key v) = true
  · rw [if_pos hm]
    exact h
  · rw [if_neg hm]
    have hall : ∀ x ∈ m, ¬ (key x = key v) := by simpa using hm
    have hv : key v ∉ keysOf key m := by
      intro hmem
      rcases List.mem_map.mp hmem with ⟨a, ha, hkey⟩
      exact hall a ha hkey
    rw [List.nodup_append]
    refine ⟨h, List.nodup_singleton _, ?_⟩
    intro x hx hx2
    rw [List.mem_singleton.mp hx2] at hx
    exact hv hx

theorem loadMap_aux (m : List α) : ∀ acc : List α,
    (keysOf key (acc ++ m)).Nodup →
    m.foldl (fun a b => mapSet key a b) acc = acc ++ m := by
  induction m with
  | nil =>
    intro acc _
    simp
  | cons a t ih =>
    intro acc h
    have hka : key a ∉ keysOf key acc := by
      unfold keysOf at h
      rw [List.map_append] at h
      rcases List.nodup_append.mp h with ⟨_, _, hdisj⟩
      intro hmem
      exact hdisj hmem (by simp)
    have hany : acc.any (fun e => key e = key a) = false := by
      rw [List.any_eq_false]
      intro x hx
      simp only [decide_eq_true_eq]
      intro hkey
      exact hka (List.mem_map.mpr ⟨x, hx, hkey⟩)
    have hset : mapSet key acc a = acc ++ [a] := by
      unfold mapSet
      rw [if_neg (by simp [hany])]
    rw [List.foldl_cons, hset, ih (acc ++ [a]) (by simpa [List.append_assoc] using h)]
    simp

theorem loadMap_eq_self (m : List α) (h : NodupKey key m) :
    loadMap key m = m := by
  unfold loadMap
  have h' : (keysOf key ([] ++ m)).Nodup := by
    rw [List.nil_append]
    exact h
  simpa using loadMap_aux key m [] h'

end KeyedMap

/-! ## App usage accumulation (`src/api/install.ts`, lines 70-103) -/

/-- A stored `appUsage` entry as the heartbeat handler writes it. -/
structure AppEntry where
  name : String
  usageMinutes : ℚ
  color : Option String
deriving DecidableEq, Repr

/-- An incoming app-usage delta entry, with the alias fields the handler
inspects.  `none` models an absent field or one whose `Number(...)`
coercion is `NaN`. -/
structure AppEntryIn where
  name : String
  usageMinutes : Option ℚ
  usage_minutes : Option ℚ
  usageSeconds : Option ℚ
  usage_seconds : Option ℚ
  color : Option String
deriving DecidableEq, Repr

/-- The handler's per-entry minute derivation:
`Number(usageMinutes) || Number(usage_minutes) || Number(usageSeconds)/60
|| Number(usage_seconds)/60 || 0`. -/
def appMinutesIn (e : AppEntryIn) : ℚ :=
  jsOr e.usageMinutes
    (jsOr e.usage_minutes
      (jsOr (e.usageSeconds.map (· / 60))
        (jsOr (e.usage_seconds.map (· / 60)) 0)))

/-- One iteration of the incoming-delta merge loop: if the derived minutes
are positive, add them to the entry with the same name, or insert a new
entry; otherwise do nothing. -/
def mergeAppEntry (m : List AppEntry) (inc : AppEntryIn) : List AppEntry :=
  let minutesIn := appMinutesIn inc
  if 0 < minutesIn then
    match findKey AppEntry.name m inc.name with
    | some e => mapSet AppEntry.name m { e with usageMinutes := e.usageMinutes + minutesIn }
    | none => mapSet AppEntry.name m { name := inc.name, usageMinutes := minutesIn, color := inc.color }
  else m

/-- The full app-usage merge of one heartbeat: skipped entirely when the
incoming array is empty, else the existing array is loaded into a map and
each incoming delta is folded in. -/
def mergeAppUsage (existing : List AppEntry) (delta : List AppEntryIn) : List AppEntry :=
  if delta.isEmpty then existing
  else delta.foldl mergeAppEntry (loadMap AppEntry.name existing)

/-- A sequence of heartbeats for a fresh `installId`: the record starts
with no `appUsage` and each heartbeat's (possibly empty) delta array is
merged in turn.  A heartbeat carrying no app-usage array at all leaves the
map unchanged, exactly like an empty one. -/
def runHeartbeatsApp (hbs : List (List AppEntryIn)) : List AppEntry :=
  hbs.foldl mergeAppUsage []

/-- The accumulated minutes stored for a given app name, if any. -/
def lookupMinutes (m : List AppEntry) (n : String) : Option ℚ :=
  (findKey AppEntry.name m n).map AppEntry.usageMinutes

/-- The strictly positive derived minute deltas for name `n` in one
heartbeat's delta array. -/
def posDeltas (delta : List AppEntryIn) (n : String) : List ℚ :=
  delta.filterMap (fun e =>
    if e.name = n ∧ 0 < appMinutesIn e then some (appMinutesIn e) else none)

/-- All strictly positive derived minute deltas for name `n` across a
sequence of heartbeats. -/
def posDeltasAll (hbs : List (List AppEntryIn)) (n : String) : List ℚ :=
  hbs.flatMap (fun hb => posDeltas hb n)

theorem lookupMinutes_mergeAppEntry (m : List AppEntry) (inc : AppEntryIn) (n : String) :
    lookupMinutes (mergeAppEntry m inc) n =
      if inc.name = n ∧ 0 < appMinutesIn inc then
        match lookupMinutes m n with
        | some q => some (q + appMinutesIn inc)
        | none => some (appMinutesIn inc)
      else lookupMinutes m n := by
  by_cases hpos : 0 < appMinutesIn inc
  · by_cases hn : inc.name = n
    · subst hn
      rw [if_pos ⟨rfl, hpos⟩]
      cases hfind : findKey AppEntry.name m inc.name with
      | some e =>
        have hename : e.name = inc.name := by simpa using List.find?_some hfind
        have hv : findKey AppEntry.name
            (mapSet AppEntry.name m { e with usageMinutes := e.usageMinutes + appMinutesIn inc })
            inc.name = some { e with usageMinutes := e.usageMinutes + appMinutesIn inc } := by
          have h0 := findKey_mapSet_self AppEntry.name m
            { e with usageMinutes := e.usageMinutes + appMinutesIn inc }
          simpa [hename] using h0
        simp only [mergeAppEntry, lookupMinutes, hfind, if_pos hpos, hv, Option.map_some']
      | none =>
        have hv : findKey AppEntry.name
            (mapSet AppEntry.name m
              { name := inc.name, usageMinutes := appMinutesIn inc, color := inc.color })
            inc.name = some { name := inc.name, usageMinutes := appMinutesIn inc, color := inc.color } :=
          findKey_mapSet_self AppEntry.name m _
        simp only [mergeAppEntry, lookupMinutes, hfind, if_pos hpos, hv, Option.map_some',
          Option.map_none']
    · rw [if_neg (fun h => hn h.1)]
      cases hfind : findKey AppEntry.name m inc.name with
      | some e =>
        have hename : e.name = inc.name := by simpa using List.find?_some hfind
        have hne : n ≠ AppEntry.name { e with usageMinutes := e.usageMinutes + appMinutesIn inc } := by
          show n ≠ e.name
          rw [hename]
          exact fun h => hn h.symm
        simp only [mergeAppEntry, lookupMinutes, hfind, if_pos hpos,
          findKey_mapSet_ne AppEntry.name m _ n hne]
      | none =>
        have hne : n ≠ AppEntry.name
            { name := inc.name, usageMinutes := appMinutesIn inc, color := inc.color } := by
          show n ≠ inc.name
          exact fun h => hn h.symm
        simp only [mergeAppEntry, lookupMinutes, hfind, if_pos hpos,
          findKey_mapSet_ne AppEntry.name m _ n hne]
  · rw [if_neg (fun h => hpos h.2)]
    simp only [mergeAppEntry, lookupMinutes, if_neg hpos]

theorem lookupMinutes_foldl (delta : List AppEntryIn) :
    ∀ (m : List AppEntry) (n : String),
    lookupMinutes (delta.foldl mergeAppEntry m) n =
      match lookupMinutes m n with
      | some q => some (q + (posDeltas delta n).sum)
      | none =>
        if posDeltas delta n = [] then none else some ((posDeltas delta n).sum) := by
  induction delta with
  | nil =>
    intro m n
    cases hm : lookupMinutes m n <;> simp [hm, posDeltas]
  | cons inc rest ih =>
    intro m n
    rw [List.foldl_cons, ih (mergeAppEntry m inc) n, lookupMinutes_mergeAppEntry]
    by_cases hc : inc.name = n ∧ 0 < appMinutesIn inc
    · rw [if_pos hc]
      have hpd : posDeltas (inc :: rest) n = appMinutesIn inc :: posDeltas rest n := by
        simp [posDeltas, List.filterMap_cons, hc]
      rw [hpd]
      cases hm : lookupMinutes m n with
      | some q => simp [add_assoc]
      | none => simp
    · rw [if_neg hc]
      have hpd : posDeltas (inc :: rest) n = posDeltas rest n := by
        simp [posDeltas, List.filterMap_cons, hc]
      rw [hpd]

theorem nodupKey_mergeAppEntry (m : List AppEntry) (inc : AppEntryIn)
    (h : NodupKey AppEntry.name m) : NodupKey AppEntry.name (mergeAppEntry m inc) := by
  by_cases hpos : 0 < appMinutesIn inc
  · cases hfind : findKey AppEntry.name m inc.name with
    | some e =>
      simp only [mergeAppEntry, if_pos hpos, hfind]
      exact nodupKey_mapSet AppEntry.name m _ h
    | none =>
      simp only [mergeAppEntry, if_pos hpos, hfind]
      exact nodupKey_mapSet AppEntry.name m _ h
  · simp only [mergeAppEntry, if_neg hpos]
    exact h

theorem nodupKey_foldl_mergeAppEntry (delta : List AppEntryIn) :
    ∀ m, NodupKey AppEntry.name m →
      NodupKey AppEntry.name (delta.foldl mergeAppEntry m) := by
  induction delta with
  | nil =>
    intro m h
    exact h
  | cons inc rest ih =>
    intro m h
    rw [List.foldl_cons]
    exact ih _ (nodupKey_mergeAppEntry m inc h)

theorem nodupKey_mergeAppUsage (existing : List AppEntry) (delta : List AppEntryIn)
    (h : NodupKey AppEntry.name existing) :
    NodupKey AppEntry.name (mergeAppUsage existing delta) := by
  unfold mergeAppUsage
  by_cases hd : delta.isEmpty
  · rw [if_pos hd]
    exact h
  · rw [if_neg hd, loadMap_eq_self AppEntry.name existing h]
    exact nodupKey_foldl_mergeAppEntry delta existing h

theorem lookupMinutes_mergeAppUsage (existing : List AppEntry) (delta : List AppEntryIn)
    (n : String) (h : NodupKey AppEntry.name existing) :
    lookupMinutes (mergeAppUsage existing delta) n =
      match lookupMinutes existing n with
      | some q => some (q + (posDeltas delta n).sum)
      | none =>
        if posDeltas delta n = [] then none else some ((posDeltas delta n).sum) := by
  unfold mergeAppUsage
  by_cases hd : delta.isEmpty
  · have hnil : delta = [] := by simpa using hd
    subst hnil
    rw [if_pos List.isEmpty_nil]
    cases hm : lookupMinutes existing n <;> simp [hm, posDeltas]
  · rw [if_neg hd, loadMap_eq_self AppEntry.name existing h]
    exact lookupMinutes_foldl delta existing n

theorem lookupMinutes_run_aux (hbs : List (List AppEntryIn)) :
    ∀ (m : List AppEntry) (n : String), NodupKey AppEntry.name m →
    lookupMinutes (hbs.foldl mergeAppUsage m) n =
      match lookupMinutes m n with
      | some q => some (q + (posDeltasAll hbs n).sum)
      | none =>
        if posDeltasAll hbs n = [] then none
        else some ((posDeltasAll hbs n).sum) := by
  induction hbs with
  | nil =>
    intro m n _
    cases hm : lookupMinutes m n <;> simp [hm, posDeltasAll]
  | cons hb rest ih =>
    intro m n h
    rw [List.foldl_cons, ih (mergeAppUsage m hb) n (nodupKey_mergeAppUsage m hb h),
      lookupMinutes_mergeAppUsage m hb n h]
    have hall : posDeltasAll (hb :: rest) n = posDeltas hb n ++ posDeltasAll rest n := by
      simp [posDeltasAll]
    rw [hall]
    cases hm : lookupMinutes m n with
    | some q => simp [List.sum_append, add_assoc]
    | none =>
      by_cases hhb : posDeltas hb n = []
      · rw [hhb]
        simp
      · rw [if_neg hhb]
        have hne : posDeltas hb n ++ posDeltasAll rest n ≠ [] := by
          intro hcon
          exact hhb (List.append_eq_nil.mp hcon).1
        rw [if_neg hne]
        simp [List.sum_append]

/-- **C1.** For every sequence of heartbeats for a fresh `installId`, the
accumulated `appUsage` minutes for each app name equal the sum of all
strictly positive derived per-heartbeat minute deltas for that name, and a
name whose every delta was zero or negative (or unparseable) never appears
in the stored map. -/
theorem C1_appUsage_accumulation (hbs : List (List AppEntryIn)) (n : String) :
    lookupMinutes (runHeartbeatsApp hbs) n =
      if posDeltasAll hbs n = [] then none else some ((posDeltasAll hbs n).sum) := by
  have h := lookupMinutes_run_aux hbs [] n (by simp [NodupKey, keysOf])
  unfold runHeartbeatsApp
  rw [h]
  rfl

/-! ## Web usage accumulation (`src/api/install.ts`, lines 105-140) -/

/-- A stored `webUsage` entry as the heartbeat handler writes it. -/
structure WebEntry where
  domain : String
  visits : ℚ
  usageMinutes : ℚ
  category : String
deriving DecidableEq, Repr

/-- An incoming web-usage delta entry with the alias fields the handler
inspects. -/
structure WebEntryIn where
  domain : String
  visits : Option ℚ
  usageMinutes : Option ℚ
  usage_minutes : Option ℚ
  usageSeconds : Option ℚ
  usage_seconds : Option ℚ
  category : Option String
deriving DecidableEq, Repr

/-- `Number(incSite.visits) || 0`. -/
def webVisitsRaw (e : WebEntryIn) : ℚ := jsOr e.visits 0

/-- The same alias chain as for apps, applied to a web entry. -/
def webMinutesRaw (e : WebEntryIn) : ℚ :=
  jsOr e.usageMinutes
    (jsOr e.usage_minutes
      (jsOr (e.usageSeconds.map (· / 60))
        (jsOr (e.usage_seconds.map (· / 60)) 0)))

/-- The incoming `(visits, minutes)` pair after the legacy-agent fallback:
when `incVisits > 1000 && incMinutes === 0`, the visits figure is
reinterpreted as a duration in milliseconds and converted to minutes. -/
def webDelta (e : WebEntryIn) : ℚ × ℚ :=
  let v := webVisitsRaw e
  let m := webMinutesRaw e
  if 1000 < v ∧ m = 0 then (0, v / 1000 / 60) else (v, m)

/-- One iteration of the web-delta merge loop: add visits and minutes to
the entry with the same domain, or insert a new entry carrying the
incoming category (defaulted to `Browsing`). -/
def mergeWebEntry (m : List WebEntry) (inc : WebEntryIn) : List WebEntry :=
  let d := webDelta inc
  match findKey WebEntry.domain m inc.domain with
  | some e => mapSet WebEntry.domain m
      { e with visits := e.visits + d.1, usageMinutes := e.usageMinutes + d.2 }
  | none => mapSet WebEntry.domain m
      { domain := inc.domain, visits := d.1, usageMinutes := d.2,
        category := jsOrStr inc.category "Browsing" }

/-- The full web-usage merge of one heartbeat. -/
def mergeWebUsage (existing : List WebEntry) (delta : List WebEntryIn) : List WebEntry :=
  if delta.isEmpty then existing
  else delta.foldl mergeWebEntry (loadMap WebEntry.domain existing)

/-- Total incoming visit delta for a domain across one delta array. -/
def sumVisits (delta : List WebEntryIn) (k : String) : ℚ :=
  (delta.filterMap (fun i => if i.domain = k then some (webDelta i).1 else none)).sum

/-- Total incoming minute delta for a domain across one delta array. -/
def sumMinutes (delta : List WebEntryIn) (k : String) : ℚ :=
  (delta.filterMap (fun i => if i.domain = k then some (webDelta i).2 else none)).sum

theorem findKey_mergeWebEntry_ne (m : List WebEntry) (inc : WebEntryIn) (k : String)
    (hk : k ≠ inc.domain) :
    findKey WebEntry.domain (mergeWebEntry m inc) k = findKey WebEntry.domain m k := by
  cases hfind : findKey WebEntry.domain m inc.domain with
  | some e =>
    have hed : e.domain = inc.domain := by simpa using List.find?_some hfind
    have hne : k ≠ WebEntry.domain
        { e with visits := e.visits + (webDelta inc).1,
                 usageMinutes := e.usageMinutes + (webDelta inc).2 } := by
      show k ≠ e.domain
      rw [hed]
      exact hk
    simp only [mergeWebEntry, hfind, findKey_mapSet_ne WebEntry.domain m _ k hne]
  | none =>
    have hne : k ≠ WebEntry.domain
        { domain := inc.domain, visits := (webDelta inc).1,
          usageMinutes := (webDelta inc).2,
          category := jsOrStr inc.category "Browsing" } := hk
    simp only [mergeWebEntry, hfind, findKey_mapSet_ne WebEntry.domain m _ k hne]

theorem findKey_mergeWebEntry_self (m : List WebEntry) (inc : WebEntryIn) (e : WebEntry)
    (hfind : findKey WebEntry.domain m inc.domain = some e) :
    findKey WebEntry.domain (mergeWebEntry m inc) inc.domain =
      some { e with visits := e.visits + (webDelta inc).1,
                    usageMinutes := e.usageMinutes + (webDelta inc).2 } := by
  have hed : e.domain = inc.domain := by simpa using List.find?_some hfind
  have h0 := findKey_mapSet_self WebEntry.domain m
    { e with visits := e.visits + (webDelta inc).1,
             usageMinutes := e.usageMinutes + (webDelta inc).2 }
  simp only [mergeWebEntry, hfind]
  simpa [hed] using h0

theorem findKey_foldl_mergeWebEntry (delta : List WebEntryIn) :
    ∀ (m : List WebEntry) (k : String) (e : WebEntry),
    findKey WebEntry.domain m k = some e →
    findKey WebEntry.domain (delta.foldl mergeWebEntry m) k =
      some { e with visits := e.visits + sumVisits delta k,
                    usageMinutes := e.usageMinutes + sumMinutes delta k } := by
  induction delta with
  | nil =>
    intro m k e hfind
    cases e with
    | mk d v mi c => simpa [sumVisits, sumMinutes] using hfind
  | cons inc rest ih =>
    intro m k e hfind
    rw [List.foldl_cons]
    by_cases hk : k = inc.domain
    · subst hk
      have hstep := findKey_mergeWebEntry_self m inc e hfind
      have hrec := ih (mergeWebEntry m inc) inc.domain _ hstep
      rw [hrec]
      have hsv : sumVisits (inc :: rest) inc.domain =
          (webDelta inc).1 + sumVisits rest inc.domain := by
        simp [sumVisits, List.filterMap_cons]
      have hsm : sumMinutes (inc :: rest) inc.domain =
          (webDelta inc).2 + sumMinutes rest inc.domain := by
        simp [sumMinutes, List.filterMap_cons]
      rw [hsv, hsm]
      cases e with
      | mk d v mi c => simp [add_assoc]
    · have hstep := findKey_mergeWebEntry_ne m inc k hk
      have hkk : ¬ (inc.domain = k) := fun h => hk h.symm
      have hsv : sumVisits (inc :: rest) k = sumVisits rest k := by
        simp [sumVisits, List.filterMap_cons, hkk]
      have hsm : sumMinutes (inc :: rest) k = sumMinutes rest k := by
        simp [sumMinutes, List.filterMap_cons, hkk]
      rw [ih (mergeWebEntry m inc) k e (by rw [hstep]; exact hfind), hsv, hsm]

theorem findKey_foldl_mergeWebEntry_frame (delta : List WebEntryIn) :
    ∀ (m : List WebEntry) (k : String), k ∉ delta.map WebEntryIn.domain →
    findKey WebEntry.domain (delta.foldl mergeWebEntry m) k =
      findKey WebEntry.domain m k := by
  induction delta with
  | nil =>
    intro m k _
    rfl
  | cons inc rest ih =>
    intro m k hk
    rw [List.foldl_cons]
    have hk1 : k ≠ inc.domain := by
      intro h
      exact hk (by simp [h])
    have hk2 : k ∉ rest.map WebEntryIn.domain := by
      intro h
      exact hk (by simp [h])
    rw [ih (mergeWebEntry m inc) k hk2, findKey_mergeWebEntry_ne m inc k hk1]

theorem sumVisits_nonneg (delta : List WebEntryIn) (k : String)
    (h : ∀ inc ∈ delta, 0 ≤ (webDelta inc).1) : 0 ≤ sumVisits delta k := by
  apply List.sum_nonneg
  intro x hx
  rcases List.mem_filterMap.mp hx with ⟨i, hi, hfi⟩
  by_cases hd : i.domain = k
  · rw [if_pos hd] at hfi
    rw [← Option.some_inj.mp hfi]
    exact h i hi
  · rw [if_neg hd] at hfi
    exact absurd hfi (by simp)

theorem sumMinutes_nonneg (delta : List WebEntryIn) (k : String)
    (h : ∀ inc ∈ delta, 0 ≤ (webDelta inc).2) : 0 ≤ sumMinutes delta k := by
  apply List.sum_nonneg
  intro x hx
  rcases List.mem_filterMap.mp hx with ⟨i, hi, hfi⟩
  by_cases hd : i.domain = k
  · rw [if_pos hd] at hfi
    rw [← Option.some_inj.mp hfi]
    exact h i hi
  · rw [if_neg hd] at hfi
    exact absurd hfi (by simp)

/-- **C3 (amended).** In every heartbeat web-usage merge on a well-formed
stored map: every existing domain remains present and its exact counters
after the merge are the old ones plus the total incoming deltas for that
domain, its category is never overwritten; domains not named in the
incoming delta are untouched; and counters never decrease *provided* every
incoming entry's derived visit and minute deltas are nonnegative (the
merge adds deltas unconditionally, so a negative incoming value decreases
the counter). -/
theorem C3_webUsage_merge_amended (existing : List WebEntry) (delta : List WebEntryIn)
    (hnd : NodupKey WebEntry.domain existing) :
    (∀ k e, findKey WebEntry.domain existing k = some e →
      findKey WebEntry.domain (mergeWebUsage existing delta) k =
        some { e with visits := e.visits + sumVisits delta k,
                      usageMinutes := e.usageMinutes + sumMinutes delta k })
    ∧ (∀ k, k ∉ delta.map WebEntryIn.domain →
        findKey WebEntry.domain (mergeWebUsage existing delta) k =
          findKey WebEntry.domain existing k)
    ∧ ((∀ inc ∈ delta, 0 ≤ (webDelta inc).1 ∧ 0 ≤ (webDelta inc).2) →
        ∀ k e, findKey WebEntry.domain existing k = some e →
          ∃ e', findKey WebEntry.domain (mergeWebUsage existing delta) k = some e' ∧
            e.visits ≤ e'.visits ∧ e.usageMinutes ≤ e'.usageMinutes ∧
            e'.category = e.category) := by
  have hmain : ∀ k e, findKey WebEntry.domain existing k = some e →
      findKey WebEntry.domain (mergeWebUsage existing delta) k =
        some { e with visits := e.visits + sumVisits delta k,
                      usageMinutes := e.usageMinutes + sumMinutes delta k } := by
    intro k e hfind
    unfold mergeWebUsage
    by_cases hd : delta.isEmpty
    · have hnil : delta = [] := by simpa using hd
      subst hnil
      rw [if_pos List.isEmpty_nil, hfind]
      cases e with
      | mk d v mi c => simp [sumVisits, sumMinutes]
    · rw [if_neg hd]
      apply findKey_foldl_mergeWebEntry
      rw [loadMap_eq_self WebEntry.domain existing hnd]
      exact hfind
  refine ⟨hmain, ?_, ?_⟩
  · intro k hk
    unfold mergeWebUsage
    by_cases hd : delta.isEmpty
    · rw [if_pos hd]
    · rw [if_neg hd, findKey_foldl_mergeWebEntry_frame delta _ k hk,
        loadMap_eq_self WebEntry.domain existing hnd]
  · intro hnn k e hfind
    refine ⟨_, hmain k e hfind, ?_, ?_, rfl⟩
    · exact le_add_of_nonneg_right (sumVisits_nonneg delta k (fun i hi => (hnn i hi).1))
    · exact le_add_of_nonneg_right (sumMinutes_nonneg delta k (fun i hi => (hnn i hi).2))

/-- Witness for C3: a concrete merge in which a tracked domain's counters
advance by exactly the incoming delta and the category survives. -/
theorem C3_webUsage_merge_amended_witness :
    NodupKey WebEntry.domain [⟨"news.com", 2, 7, "News"⟩] ∧
    findKey WebEntry.domain
      (mergeWebUsage [⟨"news.com", 2, 7, "News"⟩]
        [⟨"news.com", some 1, some 3, none, none, none, none⟩]) "news.com" =
      some ⟨"news.com", 3, 10, "News"⟩ := by
  have hnd : NodupKey WebEntry.domain [⟨"news.com", 2, 7, "News"⟩] := by
    simp [NodupKey, keysOf]
  refine ⟨hnd, ?_⟩
  have h := (C3_webUsage_merge_amended [⟨"news.com", 2, 7, "News"⟩]
    [⟨"news.com", some 1, some 3, none, none, none, none⟩] hnd).1 "news.com"
    ⟨"news.com", 2, 7, "News"⟩ (by simp [findKey, List.find?])
  rw [h]
  norm_num [sumVisits, sumMinutes, webDelta, webVisitsRaw, webMinutesRaw, jsOr,
    List.filterMap]

/-- **C3 counterexample.** The claim "no domain's accumulated minutes or
visits counter decreases" fails: an incoming entry with `visits = -3` is
added as-is and drops the stored visits counter from `5` to `2`. -/
theorem C3_counterexample_negative_delta :
    findKey WebEntry.domain
      (mergeWebUsage [⟨"d", 5, 5, "Browsing"⟩]
        [⟨"d", some (-3), none, none, none, none, none⟩]) "d" =
      some ⟨"d", 2, 5, "Browsing"⟩ ∧ (2 : ℚ) < 5 := by
  constructor
  · norm_num [mergeWebUsage, mergeWebEntry, loadMap, mapSet, findKey, webDelta,
      webVisitsRaw, webMinutesRaw, jsOr, List.foldl, List.find?]
  · norm_num

/-- **C5 (amended).** When the raw visits figure exceeds `1000` and the
derived minutes are `0`, the merge reinterprets visits as milliseconds:
`webDelta` yields `+0` visits and `visits/1000/60` minutes — for
`{visits: 5000, usageMinutes: 0}` that is `1/12 ≈ 0.0833` of a minute,
not `83.33` minutes. -/
theorem C5_legacy_reinterpretation (inc : WebEntryIn)
    (hv : 1000 < webVisitsRaw inc) (hm : webMinutesRaw inc = 0) :
    webDelta inc = (0, webVisitsRaw inc / 1000 / 60) := by
  simp only [webDelta]
  rw [if_pos ⟨hv, hm⟩]

/-- Witness for C5: the claim's own example payload hits the legacy branch
and merges as `+0` visits, `+1/12` minutes. -/
theorem C5_legacy_reinterpretation_witness :
    1000 < webVisitsRaw ⟨"x", some 5000, some 0, none, none, none, none⟩ ∧
    webMinutesRaw ⟨"x", some 5000, some 0, none, none, none, none⟩ = 0 ∧
    webDelta ⟨"x", some 5000, some 0, none, none, none, none⟩ = (0, 1 / 12) := by
  have h1 : webVisitsRaw ⟨"x", some 5000, some 0, none, none, none, none⟩ = 5000 := by
    norm_num [webVisitsRaw, jsOr]
  have h2 : webMinutesRaw ⟨"x", some 5000, some 0, none, none, none, none⟩ = 0 := by
    norm_num [webMinutesRaw, jsOr]
  have hv : 1000 < webVisitsRaw ⟨"x", some 5000, some 0, none, none, none, none⟩ := by
    rw [h1]
    norm_num
  refine ⟨hv, h2, ?_⟩
  rw [C5_legacy_reinterpretation _ hv h2, h1]
  norm_num

/-- **C5 counterexample.** The claim's asserted magnitude is wrong: the
example delta merges as `1/12` of a minute (`5000/1000/60 = 0.0833…`),
which is not `83.33` minutes. -/
theorem C5_counterexample_magnitude :
    mergeWebUsage [] [⟨"x", some 5000, some 0, none, none, none, none⟩] =
      [⟨"x", 0, 1 / 12, "Browsing"⟩] ∧ (1 / 12 : ℚ) ≠ 8333 / 100 := by
  constructor
  · norm_num [mergeWebUsage, mergeWebEntry, loadMap, mapSet, findKey, webDelta,
      webVisitsRaw, webMinutesRaw, jsOr, jsOrStr, List.foldl, List.find?]
  · norm_num

/-- **C7 (amended).** The alias chain is checked in the fixed priority
order (minutes, `usage_minutes`, seconds ÷ 60, `usage_seconds` ÷ 60), but
a present alias valued `0` (or an unparseable one) is falsy in JS and
falls through: the first alias with a nonzero value wins.  In particular
a zero minutes alias together with a positive seconds alias derives
`seconds / 60`, not `0`. -/
theorem C7_alias_priority_amended :
    (∀ (n : String) (c : Option String) (m s : ℚ), m ≠ 0 →
      appMinutesIn ⟨n, some m, none, some s, none, c⟩ = m)
    ∧ (∀ (n : String) (c : Option String) (s : ℚ), s ≠ 0 →
      appMinutesIn ⟨n, some 0, none, some s, none, c⟩ = s / 60)
    ∧ appMinutesIn ⟨"app", some 0, none, some 120, none, none⟩ = 2 := by
  refine ⟨?_, ?_, ?_⟩
  · intro n c m s hm
    simp [appMinutesIn, jsOr, hm]
  · intro n c s hs
    have h60 : s / 60 ≠ 0 := by
      simp [div_eq_zero_iff, hs]
    simp [appMinutesIn, jsOr, h60]
  · norm_num [appMinutesIn, jsOr]

/-- Witness for C7: a nonzero minutes alias wins outright; a zero minutes
alias falls through to the seconds alias. -/
theorem C7_alias_priority_amended_witness :
    appMinutesIn ⟨"w", some 7, none, some 60, none, none⟩ = 7 ∧
    appMinutesIn ⟨"w", some 0, none, some 60, none, none⟩ = 1 := by
  constructor
  · exact C7_alias_priority_amended.1 "w" none 7 60 (by norm_num)
  · have h := C7_alias_priority_amended.2.1 "w" none 60 (by norm_num)
    rw [h]
    norm_num

/-- **C7 counterexample.** With a minutes alias present but `0` and a
seconds alias of `120`, the derived minutes are `2`, not `0` as "first
present alias wins" would require. -/
theorem C7_counterexample_zero_minutes :
    appMinutesIn ⟨"app2", some 0, none, some 120, none, none⟩ = 2 ∧ (2 : ℚ) ≠ 0 := by
  constructor
  · norm_num [appMinutesIn, jsOr]
  · norm_num

/-! ## Device records and the two write paths
(`src/api/install.ts` lines 44-165, `src/api/upload.ts` lines 89-143) -/

/-- A `videos` list entry: `{ url, timestamp, filename }`. -/
structure Video where
  url : String
  timestamp : String
  filename : String
deriving DecidableEq, Repr

/-- A stored device record.  Every field is optional: `none` models a key
absent from the stored JSON object (for a fresh device the record read
back is `{}`, i.e. all `none`). -/
structure DeviceRecord where
  installId : Option String := none
  hostname : Option String := none
  status : Option String := none
  company : Option String := none
  userName : Option String := none
  osVersion : Option String := none
  appUsage : Option (List AppEntry) := none
  webUsage : Option (List WebEntry) := none
  videos : Option (List Video) := none
  lastScreenshot : Option String := none
  lastScreenshotTime : Option String := none
  lastSeen : Option String := none
deriving DecidableEq, Repr

/-- An incoming heartbeat body, with the alias spellings the handler
normalizes.  `none` models an absent (or null) key. -/
structure Payload where
  installId : Option String := none
  hostname : Option String := none
  status : Option String := none
  company : Option String := none
  userName : Option String := none
  UserName : Option String := none
  username : Option String := none
  user : Option String := none
  osVersion : Option String := none
  OsVersion : Option String := none
  OSVersion : Option String := none
  appUsage : Option (List AppEntryIn) := none
  AppUsage : Option (List AppEntryIn) := none
  app_usage : Option (List AppEntryIn) := none
  webUsage : Option (List WebEntryIn) := none
  web_usage : Option (List WebEntryIn) := none
  videos : Option (List Video) := none
  lastScreenshot : Option String := none
deriving DecidableEq, Repr

/-- The record written by a successful heartbeat
(`src/api/install.ts` lines 57-165): the spread
`{ ...existingData, ...data, appUsage, webUsage, videos, userName,
osVersion, lastScreenshot, lastScreenshotTime, lastSeen }`.
Keys named only by alias spellings of the payload are also spread into
the stored object by `...data`; they are not part of the modelled record
because no canonical field reads them back. -/
def heartbeatWrite (existing : DeviceRecord) (data : Payload) (now : String) :
    DeviceRecord :=
  let appUsageRaw := jsOrOpt data.appUsage (jsOrOpt data.AppUsage data.app_usage)
  let webUsageRaw := jsOrOpt data.webUsage (jsOrOpt data.webUsage data.web_usage)
  let userNameN := jsOrStrOpt data.userName
    (jsOrStrOpt data.UserName (jsOrStrOpt data.username data.user))
  let osVersionN := jsOrStrOpt data.osVersion
    (jsOrStrOpt data.OsVersion data.OSVersion)
  let lastScreenshotN := jsOrStrOpt data.lastScreenshot existing.lastScreenshot
  let lastScreenshotTimeN :=
    if strTruthy data.lastScreenshot then some now else existing.lastScreenshotTime
  let mergedAppUsage :=
    match appUsageRaw with
    | some l => mergeAppUsage (jsArr existing.appUsage) l
    | none => jsArr existing.appUsage
  let mergedWebUsage :=
    match webUsageRaw with
    | some l => mergeWebUsage (jsArr existing.webUsage) l
    | none => jsArr existing.webUsage
  let hasPayloadVideos :=
    match data.videos with
    | some l => !l.isEmpty
    | none => false
  let finalVideos := if hasPayloadVideos then jsArr data.videos else jsArr existing.videos
  { installId := jsOrOpt data.installId existing.installId
    hostname := jsOrOpt data.hostname existing.hostname
    status := jsOrOpt data.status existing.status
    company := jsOrOpt data.company existing.company
    userName := jsOrStrOpt userNameN existing.userName
    osVersion := jsOrStrOpt osVersionN existing.osVersion
    appUsage := some mergedAppUsage
    webUsage := some mergedWebUsage
    videos := some finalVideos
    lastScreenshot := lastScreenshotN
    lastScreenshotTime := lastScreenshotTimeN
    lastSeen := some now }

/-- The record written by a successful upload
(`src/api/upload.ts` lines 118-143): the scaffold defaults are listed
*before* `...existingDevice` in `baseDevice`, so any field present on the
existing record — including `lastSeen` — wins over the freshly computed
default; only `videos` is overridden afterwards. -/
def uploadWrite (existing : DeviceRecord) (deviceId videoUrl timestamp filename now : String) :
    DeviceRecord :=
  let newVideo : Video := ⟨videoUrl, timestamp, filename⟩
  { existing with
    installId := jsOrOpt existing.installId (some deviceId)
    hostname := jsOrOpt existing.hostname
      (jsOrStrOpt existing.hostname (some ("Device-" ++ deviceId.take 6)))
    status := jsOrOpt existing.status (jsOrStrOpt existing.status (some "Online"))
    lastSeen := jsOrOpt existing.lastSeen (some now)
    appUsage := jsOrOpt existing.appUsage (some (jsArr existing.appUsage))
    webUsage := jsOrOpt existing.webUsage (some (jsArr existing.webUsage))
    videos := some ((newVideo :: jsArr existing.videos).take 50) }

/-- **C2 (amended).** The heartbeat path preserves the stored `company`
field whenever the incoming payload does not itself carry a `company`
key, and the upload path always preserves it; but because the heartbeat
write spreads `...data` after `...existingData` with no explicit
`company: existing.company` override, a payload that does carry a
`company` key replaces the stored value. -/
theorem C2_company_preservation_amended :
    (∀ (existing : DeviceRecord) (data : Payload) (now : String),
      data.company = none →
      (heartbeatWrite existing data now).company = existing.company)
    ∧ (∀ (existing : DeviceRecord) (did url ts fn now : String),
      (uploadWrite existing did url ts fn now).company = existing.company) := by
  constructor
  · intro existing data now h
    simp [heartbeatWrite, jsOrOpt, h]
  · intro existing did url ts fn now
    rfl

/-- Witness for C2: a heartbeat without a `company` key and an upload both
leave the stored company untouched. -/
theorem C2_company_preservation_amended_witness :
    (heartbeatWrite { company := some "Acme" }
      { installId := some "i", hostname := some "h" } "T1").company = some "Acme" ∧
    (uploadWrite { company := some "Acme" } "i" "u" "ts" "fn" "T1").company =
      some "Acme" := by
  constructor
  · exact C2_company_preservation_amended.1 { company := some "Acme" } _ "T1" rfl
  · exact C2_company_preservation_amended.2 { company := some "Acme" } "i" "u" "ts" "fn" "T1"

/-- **C2 counterexample.** A heartbeat payload carrying `company: "B"`
overrides the stored `company: "A"` through the `...data` spread, so the
claim "whatever the incoming agent payload contains, company is
unchanged" is false. -/
theorem C2_counterexample_payload_company :
    (heartbeatWrite { company := some "A" }
      { installId := some "i", hostname := some "h", company := some "B" }
      "T").company = some "B" ∧
    (some "B" : Option String) ≠ some "A" := by
  constructor
  · rfl
  · decide

/-- **C4.** A heartbeat whose payload carries no video list (or an empty
one) leaves the stored `videos` list exactly as it was; only a non-empty
payload list replaces it; and a video appended by an earlier upload for
the same `installId` survives a subsequent video-less heartbeat. -/
theorem C4_video_protection (existing : DeviceRecord) (data : Payload) (now : String) :
    ((data.videos = none ∨ data.videos = some []) →
      (heartbeatWrite existing data now).videos = some (jsArr existing.videos))
    ∧ (∀ l, data.videos = some l → l ≠ [] →
      (heartbeatWrite existing data now).videos = some l)
    ∧ (∀ (did url ts fn nowU : String), (data.videos = none ∨ data.videos = some []) →
      (heartbeatWrite (uploadWrite existing did url ts fn nowU) data now).videos =
        some ((⟨url, ts, fn⟩ :: jsArr existing.videos).take 50)) := by
  have hgen : ∀ ex : DeviceRecord, (data.videos = none ∨ data.videos = some []) →
      (heartbeatWrite ex data now).videos = some (jsArr ex.videos) := by
    intro ex h
    rcases h with h | h
    · simp [heartbeatWrite, h]
    · simp [heartbeatWrite, h, jsArr]
  refine ⟨hgen existing, ?_, ?_⟩
  · intro l hl hne
    have hie : l.isEmpty = false := by
      cases l with
      | nil => exact absurd rfl hne
      | cons a t => rfl
    simp [heartbeatWrite, hl, hie, jsArr]
  · intro did url ts fn nowU h
    rw [hgen (uploadWrite existing did url ts fn nowU) h]
    rfl

/-- Witness for C4: a video-less heartbeat on an empty record keeps the
empty list, and the video stored by an upload survives a following
video-less heartbeat. -/
theorem C4_video_protection_witness :
    (heartbeatWrite { } { installId := some "i", hostname := some "h" } "T2").videos =
      some [] ∧
    (heartbeatWrite (uploadWrite { } "d" "u" "ts" "fn" "T1")
      { installId := some "i", hostname := some "h" } "T2").videos =
      some [⟨"u", "ts", "fn"⟩] := by
  constructor
  · exact (C4_video_protection { } { installId := some "i", hostname := some "h" }
      "T2").1 (Or.inl rfl)
  · have h := (C4_video_protection { } { installId := some "i", hostname := some "h" }
      "T2").2.2 "d" "u" "ts" "fn" "T1" (Or.inl rfl)
    rw [h]
    rfl

/-- **C6 (amended).** Every successful heartbeat stamps `lastSeen` with
the current time; an upload stamps it only when the existing record has
no `lastSeen` field (a fresh device) — for an existing record the
`...existingDevice` spread after the scaffold defaults keeps the *old*
timestamp. -/
theorem C6_lastSeen_amended :
    (∀ (existing : DeviceRecord) (data : Payload) (now : String),
      (heartbeatWrite existing data now).lastSeen = some now)
    ∧ (∀ (existing : DeviceRecord) (did url ts fn now : String),
      existing.lastSeen = none →
      (uploadWrite existing did url ts fn now).lastSeen = some now)
    ∧ (∀ (existing : DeviceRecord) (did url ts fn now t : String),
      existing.lastSeen = some t →
      (uploadWrite existing did url ts fn now).lastSeen = some t) := by
  refine ⟨?_, ?_, ?_⟩
  · intro existing data now
    rfl
  · intro existing did url ts fn now h
    simp [uploadWrite, jsOrOpt, h]
  · intro existing did url ts fn now t h
    simp [uploadWrite, jsOrOpt, h]

/-- Witness for C6: concrete instances of all three cases. -/
theorem C6_lastSeen_amended_witness :
    (heartbeatWrite { } { installId := some "i", hostname := some "h" } "N1").lastSeen =
      some "N1" ∧
    (uploadWrite { } "d" "u" "ts" "fn" "N2").lastSeen = some "N2" ∧
    (uploadWrite { lastSeen := some "O" } "d" "u" "ts" "fn" "N3").lastSeen = some "O" := by
  refine ⟨C6_lastSeen_amended.1 { } _ "N1",
    C6_lastSeen_amended.2.1 { } "d" "u" "ts" "fn" "N2" rfl,
    C6_lastSeen_amended.2.2 { lastSeen := some "O" } "d" "u" "ts" "fn" "N3" "O" rfl⟩

/-- **C6 counterexample.** An upload touching an existing record that
already has a `lastSeen` keeps the stale timestamp instead of the current
time of the request. -/
theorem C6_counterexample_upload_stale_lastSeen :
    (uploadWrite { lastSeen := some "2024-01-01T00:00:00Z" } "d" "u" "ts" "fn"
      "2024-06-01T00:00:00Z").lastSeen = some "2024-01-01T00:00:00Z" ∧
    (some "2024-01-01T00:00:00Z" : Option String) ≠ some "2024-06-01T00:00:00Z" := by
  constructor
  · rfl
  · decide

/-- **C9.** Every successful upload prepends the new `{url, timestamp,
filename}` entry, caps the list at 50 entries, and neither reorders nor
drops any of the first 49 pre-existing entries. -/
theorem C9_upload_video_prepend (existing : DeviceRecord)
    (did url ts fn now : String) :
    ((uploadWrite existing did url ts fn now).videos.getD []).head? =
      some ⟨url, ts, fn⟩ ∧
    ((uploadWrite existing did url ts fn now).videos.getD []).length ≤ 50 ∧
    (∀ i : ℕ, i < 49 →
      ((uploadWrite existing did url ts fn now).videos.getD [])[i + 1]? =
        (jsArr existing.videos)[i]?) := by
  have hv : (uploadWrite existing did url ts fn now).videos =
      some ((⟨url, ts, fn⟩ :: jsArr existing.videos).take 50) := rfl
  rw [hv]
  refine ⟨?_, ?_, ?_⟩
  · rw [Option.getD_some, List.head?_eq_getElem?,
      List.getElem?_take_of_lt (by norm_num : (0 : ℕ) < 50)]
    simp
  · rw [Option.getD_some, List.length_take]
    exact min_le_left _ _
  · intro i hi
    rw [Option.getD_some, List.getElem?_take_of_lt (by omega : i + 1 < 50),
      List.getElem?_cons_succ]

/-- Witness for C9: uploading onto a one-video record yields the new
video first and the old one second. -/
theorem C9_upload_video_prepend_witness :
    ((uploadWrite { videos := some [⟨"u0", "t0", "f0"⟩] } "d" "u1" "t1" "f1"
      "N").videos.getD []).head? = some ⟨"u1", "t1", "f1"⟩ ∧
    ((uploadWrite { videos := some [⟨"u0", "t0", "f0"⟩] } "d" "u1" "t1" "f1"
      "N").videos.getD [])[1]? = some ⟨"u0", "t0", "f0"⟩ := by
  have h := C9_upload_video_prepend { videos := some [⟨"u0", "t0", "f0"⟩] }
    "d" "u1" "t1" "f1" "N"
  refine ⟨h.1, ?_⟩
  have h2 := h.2.2 0 (by norm_num)
  rw [show (0 : ℕ) + 1 = 1 from rfl] at h2
  rw [h2]
  rfl

/-! ## Request handlers, effects and authorization
(`src/api/install.ts` lines 9-55, `src/api/upload.ts` lines 17-116) -/

/-- The accepted secret:
`process.env.INSTALL_TOKEN || 'dxTLRLGrGg3Jh2ZujTLaavsg'` — an unset (or
empty) environment variable falls back to the hardcoded literal. -/
def validToken (envTok : Option String) : String :=
  jsOrStr envTok "dxTLRLGrGg3Jh2ZujTLaavsg"

/-- Outcome of one heartbeat request: HTTP status plus the KV effects
(`sadd`s to `device_ids`, then `set`s of device records). -/
structure HbOutcome where
  status : Nat
  sadds : List String
  sets : List (String × DeviceRecord)
deriving DecidableEq, Repr

/-- The heartbeat handler (`src/api/install.ts`).  `kvConfigured` models
the KV URL/token environment variables being set; `existing` is the
record `kv.get` returns (all-`none` for a fresh device); `now` stands for
`new Date().toISOString()`.  JS falsiness of `data`, `data.installId`
and `data.hostname` (absent or empty) triggers the 400.

The whole body — from reading `request.body` through `kv.set` — runs in a
`try { ... } catch { return 500 }` block.  `saddOk`, `getOk` and `setOk`
model whether each KV call succeeds: a call that throws yields 500 with
the effects of the calls that already succeeded persisted — in
particular, a `kv.get`/`kv.set` failure leaves the preceding `kv.sadd`
committed. -/
def installHandler (envTok : Option String) (kvConfigured saddOk getOk setOk : Bool)
    (method : String) (token : Option String) (body : Option Payload)
    (existing : DeviceRecord) (now : String) : HbOutcome :=
  if method = "OPTIONS" then ⟨200, [], []⟩
  else if method ≠ "POST" then ⟨405, [], []⟩
  else if token ≠ some (validToken envTok) then ⟨401, [], []⟩
  else if !kvConfigured then ⟨503, [], []⟩
  else
    match body with
    | none => ⟨400, [], []⟩
    | some data =>
      match data.installId, data.hostname with
      | some iid, some hn =>
        if iid = "" ∨ hn = "" then ⟨400, [], []⟩
        else if !saddOk then ⟨500, [], []⟩
        else if !getOk then ⟨500, [iid], []⟩
        else if !setOk then ⟨500, [iid], []⟩
        else ⟨200, [iid], [("device:" ++ iid, heartbeatWrite existing data now)]⟩
      | _, _ => ⟨400, [], []⟩

/-- Outcome of one upload request: HTTP status, blob-store writes, then
KV effects. -/
structure UpOutcome where
  status : Nat
  blobPuts : List String
  sadds : List String
  sets : List (String × DeviceRecord)
deriving DecidableEq, Repr

/-- The upload handler (`src/api/upload.ts`).  The blob `put` fires inside
the Busboy `file` event during streaming — *before* any of the `finish`
handler's form-field validation; `blobUrl` is the URL a successful `put`
resolves with and `uniquePath` the collision-resistant
`recordings/<timestamp>-<random>-<filename>` path.  The device id is
`fields['installId'] || fields['device']`; `timestamp` and `filename`
default to the current time and `recording.mp4`.

The `finish` body runs in a `try { ... } catch { return 500 }` block.
`blobPutOk` models the blob `put` promise: a rejected `put` stores no
blob and is rethrown by `await fileUploadPromise`.  `saddOk`, `getOk`
and `setOk` model the KV calls as in the heartbeat handler: a
`kv.get`/`kv.set` failure returns 500 with the blob and the preceding
`kv.sadd` already persisted.  (The `if (!videoUrl) return 500` guard is
unreachable here: a successful `put` always sets `videoUrl`.) -/
def uploadHandler (envTok : Option String) (kvConfigured blobConfigured : Bool)
    (method : String) (token : Option String) (hasFile : Bool)
    (blobPutOk saddOk getOk setOk : Bool) (blobUrl : String)
    (fInstallId fDevice fTimestamp fFilename : Option String)
    (existing : DeviceRecord) (now uniquePath : String) : UpOutcome :=
  if method = "OPTIONS" then ⟨200, [], [], []⟩
  else if method ≠ "POST" then ⟨405, [], [], []⟩
  else if token ≠ some (validToken envTok) then ⟨401, [], [], []⟩
  else if !kvConfigured then ⟨503, [], [], []⟩
  else if !blobConfigured then ⟨500, [], [], []⟩
  else
    let blobPuts := if hasFile && blobPutOk then [uniquePath] else []
    if !hasFile then ⟨400, blobPuts, [], []⟩
    else if !blobPutOk then ⟨500, blobPuts, [], []⟩
    else
      match jsOrStrOpt fInstallId fDevice with
      | none => ⟨400, blobPuts, [], []⟩
      | some did =>
        if did = "" then ⟨400, blobPuts, [], []⟩
        else if !saddOk then ⟨500, blobPuts, [], []⟩
        else if !getOk then ⟨500, blobPuts, [did], []⟩
        else if !setOk then ⟨500, blobPuts, [did], []⟩
        else
          ⟨200, blobPuts, [did],
            [("device:" ++ did,
              uploadWrite existing did blobUrl (jsOrStr fTimestamp now)
                (jsOrStr fFilename "recording.mp4") now)]⟩

/-- **C10.** With `INSTALL_TOKEN` unset, the accepted secret is the
hardcoded literal `dxTLRLGrGg3Jh2ZujTLaavsg`; on both endpoints a POST is
rejected with 401 exactly when the `x-install-token` header differs from
the configured-or-default secret, so with no configuration a request
presenting the published default token passes authorization. -/
theorem C10_default_token_auth :
    validToken none = "dxTLRLGrGg3Jh2ZujTLaavsg"
    ∧ (∀ (envTok : Option String) (kvC saddOk getOk setOk : Bool) (tok : Option String)
        (body : Option Payload) (existing : DeviceRecord) (now : String),
        (installHandler envTok kvC saddOk getOk setOk "POST" tok body existing
          now).status = 401 ↔ tok ≠ some (validToken envTok))
    ∧ (∀ (envTok : Option String) (kvC blobC hasFile bOk sOk gOk stOk : Bool)
        (blobUrl : String) (tok fI fD fT fF : Option String) (existing : DeviceRecord)
        (now uniquePath : String),
        (uploadHandler envTok kvC blobC "POST" tok hasFile bOk sOk gOk stOk blobUrl
          fI fD fT fF existing now uniquePath).status = 401 ↔
          tok ≠ some (validToken envTok)) := by
  refine ⟨rfl, ?_, ?_⟩
  · intro envTok kvC saddOk getOk setOk tok body existing now
    unfold installHandler
    rw [if_neg (by decide : ¬ ("POST" = "OPTIONS")),
      if_neg (by decide : ¬ ("POST" ≠ "POST"))]
    by_cases htok : tok = some (validToken envTok)
    · rw [if_neg (by simp [htok])]
      simp only [ne_eq, htok, not_true_eq_false, iff_false]
      repeat' split
      all_goals simp
    · rw [if_pos htok]
      simpa using htok
  · intro envTok kvC blobC hasFile bOk sOk gOk stOk blobUrl tok fI fD fT fF existing
      now uniquePath
    unfold uploadHandler
    rw [if_neg (by decide : ¬ ("POST" = "OPTIONS")),
      if_neg (by decide : ¬ ("POST" ≠ "POST"))]
    by_cases htok : tok = some (validToken envTok)
    · rw [if_neg (by simp [htok])]
      simp only [ne_eq, htok, not_true_eq_false, iff_false]
      repeat' split
      all_goals simp
    · rw [if_pos htok]
      simpa using htok

/-- Witness for C10: with no configuration, the published default token is
accepted (not 401) and a wrong token is rejected with 401. -/
theorem C10_default_token_auth_witness :
    ¬ ((installHandler none true true true true "POST"
      (some "dxTLRLGrGg3Jh2ZujTLaavsg")
      (some { installId := some "i", hostname := some "h" }) { } "N").status = 401) ∧
    (installHandler none true true true true "POST" (some "wrong") none { }
      "N").status = 401 := by
  constructor
  · intro h
    have := (C10_default_token_auth.2.1 none true true true true
      (some "dxTLRLGrGg3Jh2ZujTLaavsg")
      (some { installId := some "i", hostname := some "h" }) { } "N").mp h
    exact this (by rw [C10_default_token_auth.1])
  · exact (C10_default_token_auth.2.1 none true true true true (some "wrong") none
      { } "N").mpr (by rw [C10_default_token_auth.1]; decide)

set_option maxHeartbeats 1000000

/-- **C8 (amended).** For every request that fails with a validation
error (400) or an auth error (401), the KV store is untouched: on the
heartbeat path these errors are detected before any store mutation and
the request has no partial effects at all, and on the upload path an
auth error or a missing-file validation error likewise has no effects —
but the blob `put` fires inside the Busboy `file` event during
streaming, before the `finish` handler's field validation, so an upload
carrying a file that then fails validation for a missing `installId`
has already written the blob when its 400 is returned.  (Storage
failures are outside the claim's scope: a `kv.get`/`kv.set` throw
returns 500 with the preceding `kv.sadd` persisted.) -/
theorem C8_error_effects_amended :
    (∀ (envTok : Option String) (kvC saddOk getOk setOk : Bool) (method : String)
      (tok : Option String) (body : Option Payload) (existing : DeviceRecord)
      (now : String),
      ((installHandler envTok kvC saddOk getOk setOk method tok body existing
          now).status = 400 ∨
        (installHandler envTok kvC saddOk getOk setOk method tok body existing
          now).status = 401) →
      (installHandler envTok kvC saddOk getOk setOk method tok body existing
        now).sadds = [] ∧
      (installHandler envTok kvC saddOk getOk setOk method tok body existing
        now).sets = [])
    ∧ (∀ (envTok : Option String) (kvC blobC hasFile bOk sOk gOk stOk : Bool)
      (method blobUrl : String) (tok fI fD fT fF : Option String)
      (existing : DeviceRecord) (now uniquePath : String),
      (uploadHandler envTok kvC blobC method tok hasFile bOk sOk gOk stOk blobUrl
        fI fD fT fF existing now uniquePath).status = 401 →
      (uploadHandler envTok kvC blobC method tok hasFile bOk sOk gOk stOk blobUrl
        fI fD fT fF existing now uniquePath).blobPuts = [] ∧
      (uploadHandler envTok kvC blobC method tok hasFile bOk sOk gOk stOk blobUrl
        fI fD fT fF existing now uniquePath).sadds = [] ∧
      (uploadHandler envTok kvC blobC method tok hasFile bOk sOk gOk stOk blobUrl
        fI fD fT fF existing now uniquePath).sets = [])
    ∧ (∀ (envTok : Option String) (kvC blobC bOk sOk gOk stOk : Bool)
      (method blobUrl : String) (tok fI fD fT fF : Option String)
      (existing : DeviceRecord) (now uniquePath : String),
      (uploadHandler envTok kvC blobC method tok false bOk sOk gOk stOk blobUrl
        fI fD fT fF existing now uniquePath).blobPuts = [] ∧
      (uploadHandler envTok kvC blobC method tok false bOk sOk gOk stOk blobUrl
        fI fD fT fF existing now uniquePath).sadds = [] ∧
      (uploadHandler envTok kvC blobC method tok false bOk sOk gOk stOk blobUrl
        fI fD fT fF existing now uniquePath).sets = [])
    ∧ (∀ (envTok : Option String) (kvC blobC hasFile bOk sOk gOk stOk : Bool)
      (method blobUrl : String) (tok fI fD fT fF : Option String)
      (existing : DeviceRecord) (now uniquePath : String),
      ((uploadHandler envTok kvC blobC method tok hasFile bOk sOk gOk stOk blobUrl
          fI fD fT fF existing now uniquePath).status = 400 ∨
        (uploadHandler envTok kvC blobC method tok hasFile bOk sOk gOk stOk blobUrl
          fI fD fT fF existing now uniquePath).status = 401) →
      (uploadHandler envTok kvC blobC method tok hasFile bOk sOk gOk stOk blobUrl
        fI fD fT fF existing now uniquePath).sadds = [] ∧
      (uploadHandler envTok kvC blobC method tok hasFile bOk sOk gOk stOk blobUrl
        fI fD fT fF existing now uniquePath).sets = []) := by
  refine ⟨?_, ?_, ?_, ?_⟩
  · intro envTok kvC saddOk getOk setOk method tok body existing now
    have hs : ∀ o : HbOutcome,
        installHandler envTok kvC saddOk getOk setOk method tok body existing now = o →
        ((o.status = 400 ∨ o.status = 401) → o.sadds = [] ∧ o.sets = []) := by
      intro o ho
      simp only [installHandler] at ho
      by_cases h1 : method = "OPTIONS"
      · rw [if_pos h1] at ho
        rw [← ho]
        intro h
        rcases h with h | h <;> simp at h
      rw [if_neg h1] at ho
      by_cases h2 : method = "POST"
      · rw [if_neg (by simp [h2] : ¬ (method ≠ "POST"))] at ho
        by_cases h3 : tok = some (validToken envTok)
        · rw [if_neg (by simp [h3] : ¬ (tok ≠ some (validToken envTok)))] at ho
          repeat' split at ho
          all_goals rw [← ho]
          all_goals intro h
          all_goals first
            | exact ⟨rfl, rfl⟩
            | (rcases h with h | h <;> simp at h)
        · rw [if_pos h3] at ho
          rw [← ho]
          intro h
          exact ⟨rfl, rfl⟩
      · rw [if_pos (by simp [h2] : method ≠ "POST")] at ho
        rw [← ho]
        intro h
        rcases h with h | h <;> simp at h
    exact hs _ rfl
  · intro envTok kvC blobC hasFile bOk sOk gOk stOk method blobUrl tok fI fD fT fF
      existing now uniquePath
    have hs : ∀ o : UpOutcome,
        uploadHandler envTok kvC blobC method tok hasFile bOk sOk gOk stOk blobUrl
          fI fD fT fF existing now uniquePath = o →
        (o.status = 401 → o.blobPuts = [] ∧ o.sadds = [] ∧ o.sets = []) := by
      intro o ho
      simp only [uploadHandler] at ho
      by_cases h1 : method = "OPTIONS"
      · rw [if_pos h1] at ho
        rw [← ho]
        intro h
        simp at h
      rw [if_neg h1] at ho
      by_cases h2 : method = "POST"
      · rw [if_neg (by simp [h2] : ¬ (method ≠ "POST"))] at ho
        by_cases h3 : tok = some (validToken envTok)
        · rw [if_neg (by simp [h3] : ¬ (tok ≠ some (validToken envTok)))] at ho
          repeat' split at ho
          all_goals rw [← ho]
          all_goals intro h
          all_goals first
            | exact ⟨rfl, rfl, rfl⟩
            | simp at h
        · rw [if_pos h3] at ho
          rw [← ho]
          intro h
          exact ⟨rfl, rfl, rfl⟩
      · rw [if_pos (by simp [h2] : method ≠ "POST")] at ho
        rw [← ho]
        intro h
        simp at h
    exact hs _ rfl
  · intro envTok kvC blobC bOk sOk gOk stOk method blobUrl tok fI fD fT fF existing
      now uniquePath
    have hs : ∀ o : UpOutcome,
        uploadHandler envTok kvC blobC method tok false bOk sOk gOk stOk blobUrl
          fI fD fT fF existing now uniquePath = o →
        (o.blobPuts = [] ∧ o.sadds = [] ∧ o.sets = []) := by
      intro o ho
      simp only [uploadHandler] at ho
      by_cases h1 : method = "OPTIONS"
      · rw [if_pos h1] at ho
        rw [← ho]
        exact ⟨rfl, rfl, rfl⟩
      rw [if_neg h1] at ho
      by_cases h2 : method = "POST"
      · rw [if_neg (by simp [h2] : ¬ (method ≠ "POST"))] at ho
        by_cases h3 : tok = some (validToken envTok)
        · rw [if_neg (by simp [h3] : ¬ (tok ≠ some (validToken envTok)))] at ho
          repeat' split at ho
          all_goals first
            | (rw [← ho]; exact ⟨rfl, rfl, rfl⟩)
            | simp_all
        · rw [if_pos h3] at ho
          rw [← ho]
          exact ⟨rfl, rfl, rfl⟩
      · rw [if_pos (by simp [h2] : method ≠ "POST")] at ho
        rw [← ho]
        exact ⟨rfl, rfl, rfl⟩
    exact hs _ rfl
  · intro envTok kvC blobC hasFile bOk sOk gOk stOk method blobUrl tok fI fD fT fF
      existing now uniquePath
    have hs : ∀ o : UpOutcome,
        uploadHandler envTok kvC blobC method tok hasFile bOk sOk gOk stOk blobUrl
          fI fD fT fF existing now uniquePath = o →
        ((o.status = 400 ∨ o.status = 401) → o.sadds = [] ∧ o.sets = []) := by
      intro o ho
      simp only [uploadHandler] at ho
      by_cases h1 : method = "OPTIONS"
      · rw [if_pos h1] at ho
        rw [← ho]
        intro h
        rcases h with h | h <;> simp at h
      rw [if_neg h1] at ho
      by_cases h2 : method = "POST"
      · rw [if_neg (by simp [h2] : ¬ (method ≠ "POST"))] at ho
        by_cases h3 : tok = some (validToken envTok)
        · rw [if_neg (by simp [h3] : ¬ (tok ≠ some (validToken envTok)))] at ho
          repeat' split at ho
          all_goals rw [← ho]
          all_goals intro h
          all_goals first
            | exact ⟨rfl, rfl⟩
            | (rcases h with h | h <;> simp at h)
        · rw [if_pos h3] at ho
          rw [← ho]
          intro h
          exact ⟨rfl, rfl⟩
      · rw [if_pos (by simp [h2] : method ≠ "POST")] at ho
        rw [← ho]
        intro h
        rcases h with h | h <;> simp at h
    exact hs _ rfl

/-- Witness for C8: an unauthorized heartbeat, a heartbeat missing its
hostname, an unauthorized upload and a file-less upload each leave every
store untouched; an upload that fails validation leaves the KV store
untouched. -/
theorem C8_error_effects_amended_witness :
    (installHandler none true true true true "POST" (some "wrong")
      (some { installId := some "i", hostname := some "h" }) { } "N").sadds = [] ∧
    (installHandler none true true true true "POST"
      (some "dxTLRLGrGg3Jh2ZujTLaavsg") (some { installId := some "i" }) { }
      "N").sets = [] ∧
    (uploadHandler none true true "POST" (some "wrong") true true true true true "u"
      (some "i") none none none { } "N" "p").blobPuts = [] ∧
    (uploadHandler none true true "POST" (some "dxTLRLGrGg3Jh2ZujTLaavsg") false
      true true true true "u" (some "i") none none none { } "N" "p").blobPuts = [] ∧
    (uploadHandler none true true "POST" (some "dxTLRLGrGg3Jh2ZujTLaavsg") true
      true true true true "u" none none none none { } "N" "p").sets = [] := by
  have h1 := C8_error_effects_amended.1 none true true true true "POST"
    (some "wrong") (some { installId := some "i", hostname := some "h" }) { } "N"
    (Or.inr (by decide))
  have h2 := C8_error_effects_amended.1 none true true true true "POST"
    (some "dxTLRLGrGg3Jh2ZujTLaavsg") (some { installId := some "i" }) { } "N"
    (Or.inl (by decide))
  have h3 := C8_error_effects_amended.2.1 none true true true true true true true
    "POST" "u" (some "wrong") (some "i") none none none { } "N" "p" (by decide)
  have h4 := C8_error_effects_amended.2.2.1 none true true true true true true
    "POST" "u" (some "dxTLRLGrGg3Jh2ZujTLaavsg") (some "i") none none none { }
    "N" "p"
  have h5 := C8_error_effects_amended.2.2.2 none true true true true true true true
    "POST" "u" (some "dxTLRLGrGg3Jh2ZujTLaavsg") none none none none { } "N" "p"
    (Or.inl (by decide))
  exact ⟨h1.1, h2.2, h3.1, h4.1, h5.2⟩

/-- **C8 counterexample.** A well-authorized upload that carries a file
but no `installId`/`device` field fails with 400 — yet its blob was
already written during streaming, so the request does have a partial
effect on the blob store. -/
theorem C8_counterexample_blob_written_before_400 :
    (uploadHandler none true true "POST" (some "dxTLRLGrGg3Jh2ZujTLaavsg") true
      true true true true "https://blob.example/x" none none none none { } "N"
      "recordings/p").status = 400 ∧
    (uploadHandler none true true "POST" (some "dxTLRLGrGg3Jh2ZujTLaavsg") true
      true true true true "https://blob.example/x" none none none none { } "N"
      "recordings/p").blobPuts = ["recordings/p"] := by
  constructor
  · rfl
  · rfl
